import Mathlib

/-!
A shallow embedding of the module-graph builder in src/ModuleLoader.ts.

The TypeScript source is a class whose methods mutate a shared registry
(the Map modulesById), a warning sink (graph.warn) and the modules
themselves.  Here the mutable state is an explicit LoaderState record and
every method is a state-passing function; a thrown error is an
Except.error.  The asynchronous pipeline is collapsed to a sequential
execution (one valid cooperative schedule); the interleaving-sensitive
registry invariant is modelled separately by a small-step task machine at
the end of the definitions, where each synchronous segment between await
points of the source is one atomic step.

External collaborators that the loader only calls (the plugin pipeline's
hookFirst results, utils/transform, Module.setSource and the path
helpers from utils/path) are supplied as oracle functions in Env.
-/

namespace Rollup

/-- Raw result of a first-result resolveId hook invocation, as consumed by
normalizeResolveIdResult: a string, an object carrying id / external /
moduleSideEffects fields, the literal false, or null-or-undefined.
JavaScript truthiness is recovered by rirTruthy below (an empty string is
falsy, objects are always truthy). -/
inductive ResolveIdResult where
  | str (s : String)
  | obj (id : String) (external : Bool) (moduleSideEffects : Option Bool)
  | fls
  | nul
  deriving DecidableEq, Repr

/-- ResolvedId value object from rollup/types: produced by
normalizeResolveIdResult and handleMissingImports. -/
structure ResolvedId where
  id : String
  external : Bool
  moduleSideEffects : Bool
  deriving DecidableEq, Repr

/-- Result of the first-result load hook: a raw code string, an object
(whose code field may be missing, i.e. not a string), or any other value
(null etc.), plus rejection which Env.loadHook models with Except. -/
inductive LoadResult where
  | str (code : String)
  | obj (code : Option String) (moduleSideEffects : Option Bool)
  | other
  deriving DecidableEq, Repr

/-- One dynamic-import site's specifier: a literal string or an arbitrary
expression node (identified by an opaque tag). -/
inductive DynSpec where
  | str (s : String)
  | expr (tag : Nat)
  deriving DecidableEq, Repr

/-- A dynamic-import site's resolution once assigned: a raw string, or the
fetched Module / ExternalModule (referenced by its registry id). -/
inductive DynRes where
  | raw (s : String)
  | entity (id : String)
  deriving DecidableEq, Repr

/-- Warnings recorded through graph.warn by the loader. -/
inductive Warning where
  | unresolvedImportTreatedAsExternal (source importer : String)
  | namespaceConflict (name importerId reexporterId : String)
  deriving DecidableEq, Repr

/-- Fatal errors: each constructor corresponds to one of the error(...)
call sites (utils/error) or the thrown Error in fetchModule.  outOfFuel is
an artefact of the embedding's fuel-bounded recursion and corresponds to
no source behaviour; internalInvariant marks registry reads the loader
makes unreachable. -/
inductive BuildErr where
  | unresolvedImport (source importer : String)
  | unresolvedEntry (unresolvedId : String)
  | entryCannotBeExternal (unresolvedId : String)
  | cannotAssignModuleToChunk (moduleId aliasName : String) (prevAlias : Option String)
  | internalIdCannotBeExternal (source importer : String)
  | cannotFetchExternal (id : String)
  | badLoader (id : String)
  | loadFailed (message : String)
  | internalInvariant
  | outOfFuel
  deriving DecidableEq, Repr

/-- Modelled from the spec: the information Module.setSource derives from
the transformed code (Module.ts is not part of this snapshot) — the export
table, the literal static import sources, the export-all sources and the
ordered dynamic-import specifiers.  The loader treats all of these as
opaque data read back from the module. -/
structure ModuleInfo where
  exports : List String := []
  sources : List String := []
  exportAllSources : List String := []
  dynamicImports : List DynSpec := []
  deriving DecidableEq, Repr

/-- A prior build's cached module as consulted by the incremental fast
path (graph.cachedModules). -/
structure CachedModule where
  originalCode : String
  customTransformCache : Bool
  transformFiles : List String := []
  info : ModuleInfo := {}
  deriving DecidableEq, Repr

/-- One internal module.  uid is a ghost creation counter used to state
that no id is ever given two Module entities; every other field mirrors a
field of Module read or written by the loader. -/
structure Module where
  uid : Nat
  id : String
  moduleSideEffects : Bool
  isEntryPoint : Bool
  isUserDefinedEntryPoint : Bool := false
  chunkFileNames : List String := []
  chunkName : Option String := none
  userChunkNames : List String := []
  manualChunkAlias : Option String := none
  exports : List String := []
  sources : List String := []
  exportAllSources : List String := []
  dynamicImportSpecs : List DynSpec := []
  dynamicImports : List (Option DynRes) := []
  resolvedIds : List (String × ResolvedId) := []
  exportsAll : List (String × String) := []
  deriving DecidableEq, Repr

/-- An ExternalModule stub: id and side-effects flag (uid is the same
ghost creation counter). -/
structure ExternalModuleData where
  uid : Nat
  id : String
  moduleSideEffects : Bool
  deriving DecidableEq, Repr

/-- One registry entry: Module or ExternalModule. -/
inductive Entity where
  | mod (m : Module)
  | ext (e : ExternalModuleData)
  deriving DecidableEq, Repr

/-- UnresolvedModule from the source: an entry specifier plus optional
file-name and name hints. -/
structure UnresolvedModule where
  fileName : Option String := none
  id : String
  name : Option String := none
  deriving DecidableEq, Repr

/-- The external / pure-external-modules option shapes accepted by
getIdMatcher: a boolean, an id array, a callback (returning a boolean or
null / undefined), or some other value — a truthy non-array non-function
value such as a single string (str s with s nonempty), or a falsy one
(str ""). -/
inductive IdOption (α : Type) where
  | bool (b : Bool)
  | arr (ids : List String)
  | func (f : String → α → Option Bool)
  | str (s : String)

/-- The treeshake.moduleSideEffects option shapes accepted by
getHasModuleSideEffects: a boolean, the literal string no-external, a
callback, an id array, or any other value (truthy values of the last kind
trigger the invalid-option warning in the source; the warning sink is not
modelled for this construction-time branch). -/
inductive SideEffectsOption where
  | bool (b : Bool)
  | noExternal
  | func (f : String → Bool → Option Bool)
  | arr (ids : List String)
  | other (truthy : Bool)

/-- String.prototype.startsWith as used by the source's sentinel checks
(defined over the character data so that it evaluates on concrete
inputs). -/
def strStartsWith (s pre : String) : Bool :=
  pre.data.isPrefixOf s.data

/-- Embedding of getIdMatcher (ModuleLoader.ts lines 44-58).  The branch
order mirrors the source's chain: option === true, typeof function,
if (option) — which catches arrays (always truthy, even empty) and truthy
scalars, the latter wrapped as a one-element list — and the final
always-false fallback for falsy values. -/
def getIdMatcher {α : Type} (option : IdOption α) : String → α → Bool :=
  match option with
  | .bool true => fun _ _ => true
  | .func f => fun id args => !(strStartsWith id "\x00") && ((f id args).getD false)
  | .arr ids => fun id _ => ids.contains id
  | .str s => if !s.isEmpty then (fun id _ => id == s) else fun _ _ => false
  | .bool false => fun _ _ => false

/-- Embedding of getHasModuleSideEffects (ModuleLoader.ts lines 60-89).
The callback branch never consults the callback for ids carrying the
virtual-module sentinel prefix and otherwise treats every result other
than the literal false as has-side-effects. -/
def getHasModuleSideEffects (mso : SideEffectsOption)
    (pureExternalModules : IdOption Unit) : String → Bool → Bool :=
  match mso with
  | .bool b => fun _ _ => b
  | .noExternal => fun _ external => !external
  | .func f => fun id external =>
      if !(strStartsWith id "\x00") then !((f id external) == some false) else true
  | .arr ids => fun id _ => ids.contains id
  | .other _ =>
      let isPureExternalModule := getIdMatcher pureExternalModules
      fun id external => !(external && isPureExternalModule id ())

/-- The loader's environment: configuration options and the external
collaborators (plugin hooks, cache, transform result, path helpers) as
pure oracles.  resolveIdHook takes the importer (none models the
undefined importer used for entry points). -/
structure Env where
  externalOption : IdOption (String × Bool)
  moduleSideEffectsOption : SideEffectsOption
  pureExternalModules : IdOption Unit
  getManualChunk : String → Option String
  resolveIdHook : String → Option String → ResolveIdResult
  loadHook : String → Except String LoadResult
  resolveDynamicImportHook : DynSpec → String → ResolveIdResult
  cachedModules : String → Option CachedModule
  transformInfo : String → ModuleInfo
  isRel : String → Bool
  resolvePath : String → String → String

/-- The isExternal predicate built in the constructor (line 115); args are
the importer and the fromResolveId flag. -/
def Env.isExternal (env : Env) (id : String) (importer : String) (fromResolveId : Bool) : Bool :=
  getIdMatcher env.externalOption id (importer, fromResolveId)

/-- The hasModuleSideEffects predicate built in the constructor
(lines 116-120). -/
def Env.hasModuleSideEffects (env : Env) : String → Bool → Bool :=
  getHasModuleSideEffects env.moduleSideEffectsOption env.pureExternalModules

/-- Embedding of normalizeRelativeExternalId (lines 40-42); the utils/path
helpers isRelative and resolve live in Env. -/
def normalizeRelativeExternalId (env : Env) (importer source : String) : String :=
  if env.isRel source then env.resolvePath importer source else source

/-- The mutable state of one build: the shared registry, the loader's
entry / manual-chunk bookkeeping, the warning sink, and ghost
instrumentation (creation log, hook-call logs, emitted files). -/
structure LoaderState where
  modulesById : List (String × Entity) := []
  indexedEntryModules : List (Nat × String) := []
  nextEntryModuleIndex : Nat := 0
  manualChunkModules : List (String × List String) := []
  warnings : List Warning := []
  loadCalls : List String := []
  transformCalls : List String := []
  emittedFiles : List String := []
  nextUid : Nat := 0
  createdLog : List (String × Nat) := []
  deriving DecidableEq, Repr

/-- Insert-or-replace on an association list, mirroring Map.set / keyed
object assignment (replacing keeps the entry's position, as a JS Map
does). -/
def setA {α : Type} : List (String × α) → String → α → List (String × α)
  | [], k, v => [(k, v)]
  | (k', v') :: t, k, v =>
      if k' = k then (k, v) :: t else (k', v') :: setA t k v

/-- Read an internal module back from the registry. -/
def getModule (s : LoaderState) (id : String) : Option Module :=
  match s.modulesById.lookup id with
  | some (.mod m) => some m
  | _ => none

/-- Update an internal module in place (the JS code mutates the shared
Module object; every holder sees the update through the registry). -/
def updModule (s : LoaderState) (id : String) (f : Module → Module) : LoaderState :=
  match getModule s id with
  | some m => { s with modulesById := setA s.modulesById id (.mod (f m)) }
  | none => s

/-- JavaScript truthiness of a raw resolveId result: an empty string,
false and null are falsy; objects and nonempty strings are truthy. -/
def rirTruthy : ResolveIdResult → Bool
  | .str s => !s.isEmpty
  | .obj _ _ _ => true
  | .fls => false
  | .nul => false

/-- Embedding of normalizeResolveIdResult (lines 420-458).  Truthy object:
take id / external / moduleSideEffects as given (no path normalization).
Truthy string: external iff the isExternal predicate says so, normalizing
the id only in that case.  Falsy result: normalize the source against the
the importer; a null result whose normalized id is not configured external
stays unresolved (none); false, or a matching external configuration,
yields an external resolution. -/
def normalizeResolveIdResult (env : Env) (resolveIdResult : ResolveIdResult)
    (importer source : String) : Option ResolvedId :=
  if rirTruthy resolveIdResult then
    match resolveIdResult with
    | .obj oid oext omse =>
        some { id := oid, external := oext,
               moduleSideEffects := omse.getD (env.hasModuleSideEffects oid oext) }
    | .str sid =>
        let external := env.isExternal sid importer true
        let nid := if external then normalizeRelativeExternalId env importer sid else sid
        some { id := nid, external := external,
               moduleSideEffects := env.hasModuleSideEffects nid external }
    | _ => none
  else
    let nid := normalizeRelativeExternalId env importer source
    if resolveIdResult ≠ .fls ∧ !(env.isExternal nid importer true) then none
    else some { id := nid, external := true,
                moduleSideEffects := env.hasModuleSideEffects nid true }

/-- Embedding of ModuleLoader.resolveId (lines 199-211): short-circuit to
false when the external predicate matches the raw source, otherwise ask
the first-result resolveId hook; then normalize. -/
def resolveId (env : Env) (source importer : String) : Option ResolvedId :=
  normalizeResolveIdResult env
    (if env.isExternal source importer false then .fls
     else env.resolveIdHook source (some importer))
    importer source

/-- Embedding of handleMissingImports (lines 380-397): an unresolved
relative source is a fatal unresolved-import error; an unresolved
non-relative source records a warning and becomes an external ResolvedId
whose id is the source itself. -/
def handleMissingImports (env : Env) (s : LoaderState) (resolvedId : Option ResolvedId)
    (source importer : String) : Except BuildErr (LoaderState × ResolvedId) :=
  match resolvedId with
  | none =>
      if env.isRel source then .error (.unresolvedImport source importer)
      else
        .ok ({ s with warnings :=
                 s.warnings ++ [.unresolvedImportTreatedAsExternal source importer] },
             { id := source, external := true,
               moduleSideEffects := env.hasModuleSideEffects source true })
  | some r => .ok (s, r)

/-- Embedding of addModuleToManualChunk (lines 213-222): a different
pre-existing aliasName is a fatal error; otherwise the aliasName is written to the
module and the module is appended (unconditionally) to that aliasName's
list. -/
def addModuleToManualChunk (s : LoaderState) (aliasName : String) (m : Module) :
    Except BuildErr (LoaderState × Module) :=
  if m.manualChunkAlias ≠ none ∧ m.manualChunkAlias ≠ some aliasName then
    .error (.cannotAssignModuleToChunk m.id aliasName m.manualChunkAlias)
  else
    let m' := { m with manualChunkAlias := some aliasName }
    let s' := { s with modulesById := setA s.modulesById m.id (.mod m') }
    let cur := (s'.manualChunkModules.lookup aliasName).getD []
    .ok ({ s' with manualChunkModules := setA s'.manualChunkModules aliasName (cur ++ [m'.id]) },
         m')

/-- Embedding of the local-exports loop of fetchModule (lines 334-338):
every locally exported name other than default becomes a self-reference. -/
def addLocalExportsList (mid : String) :
    List (String × String) → List String → List (String × String)
  | ea, [] => ea
  | ea, name :: rest =>
      addLocalExportsList mid (if name ≠ "default" then setA ea name mid else ea) rest

/-- The local-exports loop applied to a module's exportsAll. -/
def addLocalExports (m : Module) : Module :=
  { m with exportsAll := addLocalExportsList m.id m.exportsAll m.exports }

/-- Embedding of the inner merge loop of fetchModule (lines 344-350) for
one export-all target's exportsAll table: a name already present warns
(keeping the existing mapping), an absent name is copied. -/
def mergeExportsAllTable (importerId depId : String) :
    List (String × String) × List Warning → List (String × String) →
    List (String × String) × List Warning
  | (ea, ws), [] => (ea, ws)
  | (ea, ws), nv :: rest =>
      mergeExportsAllTable importerId depId
        (if (ea.lookup nv.1).isSome then
           (ea, ws ++ [Warning.namespaceConflict nv.1 importerId depId])
         else (setA ea nv.1 nv.2, ws)) rest

/-- Embedding of the export-all loop of fetchModule (lines 339-351): each
export-all source in order is resolved through the module's resolvedIds
and the registry; ExternalModule targets are skipped (a source whose
resolution or registry entry is missing — unreachable after the loader has
fetched all dependencies — contributes nothing as well). -/
def mergeExportAllSources (getEntity : String → Option Entity) (m : Module) :
    List String → List (String × String) × List Warning →
    List (String × String) × List Warning
  | [], acc => acc
  | source :: rest, acc =>
      mergeExportAllSources getEntity m rest
        (match (m.resolvedIds.lookup source).map (fun r => r.id) with
         | none => acc
         | some depId =>
             match getEntity depId with
             | some (.ext _) => acc
             | some (.mod dep) => mergeExportsAllTable m.id dep.id acc dep.exportsAll
             | none => acc)

/-- Embedding of the re-export-closure block of fetchModule (lines
334-351): local exports first, then the export-all merge. -/
def computeExportsAll (getEntity : String → Option Entity) (m0 : Module) :
    Module × List Warning :=
  let m := addLocalExports m0
  match mergeExportAllSources getEntity m m.exportAllSources (m.exportsAll, []) with
  | (ea, ws) => ({ m with exportsAll := ea }, ws)

/-- Embedding of the find-else-push / min-update body of the entry merge
loop (lines 157-164): scan for an indexed entry with the same module id;
on a hit lower its index to the minimum and stop, otherwise append a new
indexed entry at the end. -/
def mergeEntryModule : List (Nat × String) → Nat → String → List (Nat × String)
  | [], i, e => [(i, e)]
  | (j, x) :: t, i, e =>
      if x = e then (Nat.min j i, x) :: t else (j, x) :: mergeEntryModule t i e

/-- Embedding of the entry merge loop (lines 154-166): each module of the
batch is processed at a strictly increasing module index. -/
def mergeEntryModulesLoop : List (Nat × String) → Nat → List String → List (Nat × String)
  | idx, _, [] => idx
  | idx, i, e :: rest => mergeEntryModulesLoop (mergeEntryModule idx i e) (i + 1) rest

/-- Insertion step of sortEntries. -/
def insertEntry (p : Nat × String) : List (Nat × String) → List (Nat × String)
  | [] => [p]
  | q :: t => if p.1 ≤ q.1 then p :: q :: t else q :: insertEntry p t

/-- Embedding of the sort at lines 167-169: ascending by index.  The
source comparator never returns 0, but the indexed entry list never holds
two equal indexes (each entry's index is the global position of its first
request — see the entry-index theorems), so every sort implementation
agrees with this insertion sort on it. -/
def sortEntries : List (Nat × String) → List (Nat × String)
  | [] => []
  | p :: t => insertEntry p (sortEntries t)

/-- Composition, over a sequence of addEntryModules calls, of the per-call
counter bookkeeping (lines 132-133) with the merge loop and the sort
(lines 153-169), applied to each call's batch of resolved entry-module
ids: each call captures the counter as its first module index, advances
the counter by the batch length, then merges and sorts. -/
def runEntryBatches : Nat → List (Nat × String) → List (List String) → Nat × List (Nat × String)
  | ctr, idx, [] => (ctr, idx)
  | ctr, idx, b :: bs =>
      runEntryBatches (ctr + b.length) (sortEntries (mergeEntryModulesLoop idx ctr b)) bs

/-- Declarative description of the entry index (following the spec's
min-index and stable-sort wording): one entry per distinct id, indexed by
the global position of its first request, listed in first-request order.
seen accumulates the ids already listed, i is the next global position. -/
def canonAux (seen : List String) (i : Nat) : List String → List (Nat × String)
  | [] => []
  | x :: xs =>
      if x ∈ seen then canonAux seen (i + 1) xs
      else (i, x) :: canonAux (x :: seen) (i + 1) xs

/-- Projection of a registry entry to its id. -/
def entityId : Entity → String
  | .mod m => m.id
  | .ext e => e.id

/-- Modelled from the spec: utils/relativeId (not in this snapshot)
rewrites an id relative to the working directory purely for naming in
messages; it is modelled as the identity. -/
def relativeId (id : String) : String := id

/-- Embedding of resolveDynamicImport (lines 473-510).  For a non-string
specifier only the hook result counts: a string is returned raw, a falsy
result is null, and an object is completed with external defaulted to
false and moduleSideEffects defaulted to true.  For a string specifier a
null hook result falls back to the static resolveId machinery memoized in
the module's resolvedIds, while any other hook result is normalized and
passed through handleMissingImports. -/
def resolveDynamicImport (env : Env) (s : LoaderState) (modId : String)
    (spec : DynSpec) (importer : String) :
    Except BuildErr (LoaderState × Option (Sum String ResolvedId)) :=
  let resolution := env.resolveDynamicImportHook spec importer
  match spec with
  | .expr _ =>
      match resolution with
      | .str raw => .ok (s, some (.inl raw))
      | .nul => .ok (s, none)
      | .fls => .ok (s, none)
      | .obj oid oext omse =>
          .ok (s, some (.inr { id := oid, external := oext,
                               moduleSideEffects := omse.getD true }))
  | .str specifier =>
      match resolution with
      | .nul =>
          match getModule s modId with
          | none => .error .internalInvariant
          | some m =>
            match m.resolvedIds.lookup specifier with
            | some r => .ok (s, some (.inr r))
            | none =>
              match handleMissingImports env s (resolveId env specifier modId)
                      specifier modId with
              | .error e => .error e
              | .ok (s1, rid) =>
                  .ok (updModule s1 modId (fun m2 =>
                        { m2 with resolvedIds := setA m2.resolvedIds specifier rid }),
                       some (.inr rid))
      | _ =>
          match handleMissingImports env s
                  (normalizeResolveIdResult env resolution importer specifier)
                  specifier importer with
          | .error e => .error e
          | .ok (s1, rid) => .ok (s1, some (.inr rid))

mutual

/-- Embedding of fetchModule (lines 270-355).  An id already in the
registry is returned at once (an external entry is the thrown internal
error; an internal one gets isEntry OR-ed into isEntryPoint), with no load
or transform invocation.  A fresh id registers a new Module synchronously,
pre-assigns any manual-chunk alias, invokes the load hook (rejections are
re-thrown decorated with the id and importer), validates the loader result,
takes the cached-transform fast path when applicable (otherwise applying
the load result's side-effects override before transforming), attaches the
resulting source, fetches all dependencies, and finally computes the
re-export closure. -/
def fetchModule (env : Env) (fuel : Nat) (s : LoaderState) (id : String)
    (importer : Option String) (moduleSideEffects isEntry : Bool) :
    Except BuildErr (LoaderState × Module) :=
  match fuel with
  | 0 => .error .outOfFuel
  | n + 1 =>
    match s.modulesById.lookup id with
    | some (.ext _) => .error (.cannotFetchExternal id)
    | some (.mod m) =>
        let m' := { m with isEntryPoint := m.isEntryPoint || isEntry }
        .ok ({ s with modulesById := setA s.modulesById id (.mod m') }, m')
    | none =>
      let module0 : Module :=
        { uid := s.nextUid, id := id, moduleSideEffects := moduleSideEffects,
          isEntryPoint := isEntry }
      let s1 := { s with
        modulesById := setA s.modulesById id (.mod module0),
        nextUid := s.nextUid + 1,
        createdLog := s.createdLog ++ [(id, s.nextUid)] }
      let assigned : Except BuildErr (LoaderState × Module) :=
        match env.getManualChunk id with
        | some aliasName => addModuleToManualChunk s1 aliasName module0
        | none => .ok (s1, module0)
      match assigned with
      | .error e => .error e
      | .ok (s2, module1) =>
        let s3 := { s2 with loadCalls := s2.loadCalls ++ [id] }
        match env.loadHook id with
        | .error msg =>
            .error (.loadFailed ("Could not load " ++ id ++
              (match importer with
               | some imp => if imp.isEmpty then "" else " (imported by " ++ imp ++ ")"
               | none => "") ++ ": " ++ msg))
        | .ok lr =>
          let sd : Option (String × Option Bool) :=
            match lr with
            | .str code => some (code, none)
            | .obj (some code) mse => some (code, mse)
            | _ => none
          match sd with
          | none => .error (.badLoader id)
          | some (code, sdMse) =>
            let cacheHit : Option CachedModule :=
              match env.cachedModules id with
              | some c =>
                  if !c.customTransformCache && c.originalCode == code then some c
                  else none
              | none => none
            let (s4, module2, info) :=
              match cacheHit with
              | some c =>
                  ({ s3 with emittedFiles := s3.emittedFiles ++ c.transformFiles },
                   module1, c.info)
              | none =>
                  let moduleA :=
                    match sdMse with
                    | some b => { module1 with moduleSideEffects := b }
                    | none => module1
                  ({ s3 with transformCalls := s3.transformCalls ++ [id] },
                   moduleA, env.transformInfo id)
            let module3 := { module2 with
              exports := info.exports,
              sources := info.sources,
              exportAllSources := info.exportAllSources,
              dynamicImportSpecs := info.dynamicImports,
              dynamicImports := List.replicate info.dynamicImports.length none }
            let s5 := { s4 with modulesById := setA s4.modulesById id (.mod module3) }
            match fetchAllDependencies env n s5 id with
            | .error e => .error e
            | .ok s6 =>
              match getModule s6 id with
              | none => .error .internalInvariant
              | some module4 =>
                match computeExportsAll (fun i => s6.modulesById.lookup i) module4 with
                | (module5, ws) =>
                  .ok ({ s6 with
                          modulesById := setA s6.modulesById id (.mod module5),
                          warnings := s6.warnings ++ ws },
                       module5)
termination_by structural fuel

/-- Embedding of fetchAllDependencies (lines 240-268) combined with the
adoption semantics of the await in fetchModule (line 333): the returned
promise awaits the static batch and then adopts the dynamic batch, so a
static rejection wins and otherwise a dynamic rejection propagates.  The
no-op catch handler attached at lines 260-262 only suppresses the
unhandled-rejection report for the dynamic batch when a static failure
preempts its adoption; it does not stop the rejection from propagating
through the adopted promise.  The two concurrent batches are serialized
dynamic-batch-first (one valid cooperative schedule). -/
def fetchAllDependencies (env : Env) (fuel : Nat) (s : LoaderState) (modId : String) :
    Except BuildErr LoaderState :=
  match fuel with
  | 0 => .error .outOfFuel
  | n + 1 =>
    match getModule s modId with
    | none => .error .internalInvariant
    | some m =>
      match runDynamicImports env n s modId m.dynamicImportSpecs.enum with
      | (s1, dynErr) =>
        match runStaticDeps env n s1 modId m.sources with
        | (s2, statErr) =>
          match statErr with
          | some e => .error e
          | none =>
            match dynErr with
            | some e => .error e
            | none => .ok s2
termination_by structural fuel

/-- Sequentialized dynamic-import batch (the map at lines 241-259): the
items run in order and the first rejection becomes the batch's result. -/
def runDynamicImports (env : Env) (fuel : Nat) (s : LoaderState) (modId : String)
    (items : List (Nat × DynSpec)) : LoaderState × Option BuildErr :=
  match fuel with
  | 0 => (s, some .outOfFuel)
  | n + 1 =>
    match items with
    | [] => (s, none)
    | item :: rest =>
        match runDynamicImportItem env n s modId item.1 item.2 with
        | .error e => (s, some e)
        | .ok s' => runDynamicImports env n s' modId rest
termination_by structural fuel

/-- Embedding of one dynamic-import item (the async callback at lines
243-257): resolve the dynamic import; a null resolution is ignored; a
string resolution is written back raw; a ResolvedId is materialized
through fetchResolvedDependency and the fetched entity is written back at
the item's original position in dynamicImports. -/
def runDynamicImportItem (env : Env) (fuel : Nat) (s : LoaderState) (modId : String)
    (index : Nat) (spec : DynSpec) : Except BuildErr LoaderState :=
  match fuel with
  | 0 => .error .outOfFuel
  | n + 1 =>
    match resolveDynamicImport env s modId spec modId with
    | .error e => .error e
    | .ok (s1, none) => .ok s1
    | .ok (s1, some (.inl raw)) =>
        .ok (updModule s1 modId (fun m =>
          { m with dynamicImports := m.dynamicImports.set index (some (.raw raw)) }))
    | .ok (s1, some (.inr rid)) =>
        match fetchResolvedDependency env n s1 (relativeId rid.id) modId rid with
        | .error e => .error e
        | .ok (s2, ent) =>
            .ok (updModule s2 modId (fun m =>
              { m with dynamicImports :=
                  m.dynamicImports.set index (some (.entity (entityId ent))) }))
termination_by structural fuel

/-- Sequentialized static-dependency batch (lines 263-265): the items run
in order and the first rejection becomes the batch's result. -/
def runStaticDeps (env : Env) (fuel : Nat) (s : LoaderState) (modId : String)
    (sources : List String) : LoaderState × Option BuildErr :=
  match fuel with
  | 0 => (s, some .outOfFuel)
  | n + 1 =>
    match sources with
    | [] => (s, none)
    | source :: rest =>
        match resolveAndFetchDependency env n s modId source with
        | .error e => (s, some e)
        | .ok (s', _) => runStaticDeps env n s' modId rest
termination_by structural fuel

/-- Embedding of resolveAndFetchDependency (lines 460-471): the ResolvedId
is memoized in the importing module's resolvedIds (resolved through
resolveId and handleMissingImports only on a miss), then the dependency is
materialized. -/
def resolveAndFetchDependency (env : Env) (fuel : Nat) (s : LoaderState)
    (modId source : String) : Except BuildErr (LoaderState × Entity) :=
  match fuel with
  | 0 => .error .outOfFuel
  | n + 1 =>
    match getModule s modId with
    | none => .error .internalInvariant
    | some m =>
      match m.resolvedIds.lookup source with
      | some rid => fetchResolvedDependency env n s source modId rid
      | none =>
        match handleMissingImports env s (resolveId env source modId) source modId with
        | .error e => .error e
        | .ok (s1, rid) =>
            let s2 := updModule s1 modId (fun m2 =>
              { m2 with resolvedIds := setA m2.resolvedIds source rid })
            fetchResolvedDependency env n s2 source modId rid
termination_by structural fuel

/-- Embedding of fetchResolvedDependency (lines 357-378): an external
resolution get-or-creates the singleton ExternalModule (check, creation
and registration are synchronous) and errors if the id already names an
internal module; an internal resolution recurses into fetchModule as a
non-entry with the resolution's side-effects value. -/
def fetchResolvedDependency (env : Env) (fuel : Nat) (s : LoaderState)
    (source importer : String) (resolvedId : ResolvedId) :
    Except BuildErr (LoaderState × Entity) :=
  match fuel with
  | 0 => .error .outOfFuel
  | n + 1 =>
    if resolvedId.external then
      let s1 :=
        if (s.modulesById.lookup resolvedId.id).isSome then s
        else { s with
          modulesById := setA s.modulesById resolvedId.id
            (.ext { uid := s.nextUid, id := resolvedId.id,
                    moduleSideEffects := resolvedId.moduleSideEffects }),
          nextUid := s.nextUid + 1,
          createdLog := s.createdLog ++ [(resolvedId.id, s.nextUid)] }
      match s1.modulesById.lookup resolvedId.id with
      | some (.ext e) => .ok (s1, .ext e)
      | _ => .error (.internalIdCannotBeExternal source importer)
    else
      match fetchModule env n s resolvedId.id (some importer)
              resolvedId.moduleSideEffects false with
      | .error e => .error e
      | .ok (s1, m) => .ok (s1, .mod m)
termination_by structural fuel

end

/-- Embedding of loadEntryModule (lines 399-418): a false result or an
external-flagged object is the fatal entry-cannot-be-external error; a
result carrying no string id is the fatal unresolved-entry error;
otherwise the id is fetched with moduleSideEffects forced to true and
with no importer. -/
def loadEntryModule (env : Env) (fuel : Nat) (s : LoaderState)
    (unresolvedId : String) (isEntry : Bool) : Except BuildErr (LoaderState × Module) :=
  let resolveIdResult := env.resolveIdHook unresolvedId none
  if resolveIdResult = .fls ∨
     (match resolveIdResult with | .obj _ e _ => e | _ => false) = true then
    .error (.entryCannotBeExternal unresolvedId)
  else
    match (match resolveIdResult with
           | .obj oid _ _ => some oid
           | .str raw => some raw
           | _ => none) with
    | some id => fetchModule env fuel s id none true isEntry
    | none => .error (.unresolvedEntry unresolvedId)

/-- One entry of addEntryModules' per-specifier work (lines 134-150):
resolve it through loadEntryModule, then record the file-name hint or the
chunk-name hints on the resolved module. -/
def loadOneEntry (env : Env) (fuel : Nat) (s : LoaderState)
    (entry : UnresolvedModule) (isUserDefined : Bool) :
    Except BuildErr (LoaderState × String) :=
  match loadEntryModule env fuel s entry.id true with
  | .error e => .error e
  | .ok (s1, m) =>
    let s2 :=
      match entry.fileName with
      | some fn => updModule s1 m.id (fun mm =>
          { mm with chunkFileNames :=
              if fn ∈ mm.chunkFileNames then mm.chunkFileNames
              else mm.chunkFileNames ++ [fn] })
      | none =>
        match entry.name with
        | some nm => updModule s1 m.id (fun mm =>
            let mm1 :=
              if mm.chunkName = none then { mm with chunkName := some nm } else mm
            if isUserDefined then
              { mm1 with userChunkNames :=
                  if nm ∈ mm1.userChunkNames then mm1.userChunkNames
                  else mm1.userChunkNames ++ [nm] }
            else mm1)
        | none => s1
    .ok (s2, m.id)

/-- Sequentialized Promise.all over the entry batch (lines 134-152): the
resolved module ids are collected in specifier order (Promise.all
preserves positions regardless of completion order). -/
def loadEntryBatch (env : Env) (fuel : Nat) (s : LoaderState)
    (entries : List UnresolvedModule) (isUserDefined : Bool) :
    Except BuildErr (LoaderState × List String) :=
  match entries with
  | [] => .ok (s, [])
  | e :: rest =>
    match loadOneEntry env fuel s e isUserDefined with
    | .error err => .error err
    | .ok (s1, mid) =>
      match loadEntryBatch env fuel s1 rest isUserDefined with
      | .error err => .error err
      | .ok (s2, mids) => .ok (s2, mid :: mids)

/-- Embedding of the merge loop at lines 154-166, including the
isUserDefinedEntryPoint OR-update performed on each module of the
batch. -/
def mergeEntryLoop (s : LoaderState) (idx : List (Nat × String)) (i : Nat)
    (isUserDefined : Bool) : List String → LoaderState × List (Nat × String)
  | [] => (s, idx)
  | mid :: rest =>
      let s1 := updModule s mid (fun m =>
        { m with isUserDefinedEntryPoint := m.isUserDefinedEntryPoint || isUserDefined })
      mergeEntryLoop s1 (mergeEntryModule idx i mid) (i + 1) isUserDefined rest

/-- The record addEntryModules resolves with (modules referenced by
id). -/
structure AddEntryResult where
  entryModules : List String
  manualChunkModulesByAlias : List (String × List String)
  newEntryModules : List String
  deriving DecidableEq, Repr

/-- Embedding of addEntryModules (lines 124-179): capture the counter as
the batch's first module index, advance it by the batch length, resolve
every specifier, merge the resolved modules into the indexed entry list
with the min-index rule, sort by index, and return the full ordered entry
list, the manual-chunk snapshot and this call's resolved modules.  The
awaitLoadModulesPromise coalescing (lines 224-238) only affects when the
returned promise settles and is not modelled. -/
def addEntryModules (env : Env) (fuel : Nat) (s : LoaderState)
    (entries : List UnresolvedModule) (isUserDefined : Bool) :
    Except BuildErr (LoaderState × AddEntryResult) :=
  let firstEntryModuleIndex := s.nextEntryModuleIndex
  let s0 := { s with nextEntryModuleIndex := firstEntryModuleIndex + entries.length }
  match loadEntryBatch env fuel s0 entries isUserDefined with
  | .error e => .error e
  | .ok (s1, mids) =>
    match mergeEntryLoop s1 s1.indexedEntryModules firstEntryModuleIndex
            isUserDefined mids with
    | (s2, merged) =>
      let sorted := sortEntries merged
      .ok ({ s2 with indexedEntryModules := sorted },
           { entryModules := sorted.map (fun p => p.2),
             manualChunkModulesByAlias := s2.manualChunkModules,
             newEntryModules := mids })

/-- Sequentialized Promise.all over the manual-chunk ids (line 189-191):
each id is resolved as a non-entry through loadEntryModule. -/
def loadManualChunkBatch (env : Env) (fuel : Nat) (s : LoaderState) :
    List String → Except BuildErr (LoaderState × List String)
  | [] => .ok (s, [])
  | id :: rest =>
    match loadEntryModule env fuel s id false with
    | .error e => .error e
    | .ok (s1, m) =>
      match loadManualChunkBatch env fuel s1 rest with
      | .error e => .error e
      | .ok (s2, mids) => .ok (s2, m.id :: mids)

/-- The assignment loop of addManualChunks (lines 192-194). -/
def assignManualChunks (s : LoaderState) :
    List String → List String → Except BuildErr LoaderState
  | [], _ => .ok s
  | _, [] => .ok s
  | aliasName :: as, mid :: ms =>
      match getModule s mid with
      | none => .error .internalInvariant
      | some m =>
        match addModuleToManualChunk s aliasName m with
        | .error e => .error e
        | .ok (s1, _) => assignManualChunks s1 as ms

/-- Embedding of addManualChunks (lines 181-197): flatten the alias map in
key order, resolve every id as a non-entry entry-like module, then assign
each resolved module to its alias in order. -/
def addManualChunks (env : Env) (fuel : Nat) (s : LoaderState)
    (manualChunks : List (String × List String)) : Except BuildErr LoaderState :=
  let unresolved := manualChunks.flatMap (fun p => p.2.map (fun id => (p.1, id)))
  match loadManualChunkBatch env fuel s (unresolved.map (fun p => p.2)) with
  | .error e => .error e
  | .ok (s1, mids) => assignManualChunks s1 (unresolved.map (fun p => p.1)) mids

/-- Decidable equality for Except results, used to evaluate the model at
concrete inputs. -/
instance {ε α : Type} [DecidableEq ε] [DecidableEq α] : DecidableEq (Except ε α) := fun x y =>
  match x, y with
  | .ok a, .ok b => if h : a = b then .isTrue (by rw [h]) else .isFalse (by simp [h])
  | .error a, .error b => if h : a = b then .isTrue (by rw [h]) else .isFalse (by simp [h])
  | .ok _, .error _ => .isFalse (by simp)
  | .error _, .ok _ => .isFalse (by simp)

/-- The internal module (if any) an export-all source resolves to through
the importing module's resolvedIds and the registry. -/
def exportAllDepOf (getEntity : String → Option Entity) (m : Module) (source : String) :
    Option Module :=
  (m.resolvedIds.lookup source).bind (fun r =>
    match getEntity r.id with
    | some (.mod dep) => some dep
    | _ => none)

/-- Spec-side description (for the re-export-closure comparison): the
export-all targets of a module that resolve to internal modules, in
export-all-source order; external targets are dropped. -/
def internalExportAllDeps (getEntity : String → Option Entity) (m : Module) : List Module :=
  m.exportAllSources.filterMap (exportAllDepOf getEntity m)

/-- Spec-side description of the re-export closure lookup: a locally
exported name other than default maps to the module's own id; any other
name maps to the first (in source order) internal export-all target whose
exportsAll carries it. -/
def specExportsAllLookup (m : Module) (deps : List Module) (n : String) : Option String :=
  if n ∈ m.exports ∧ n ≠ "default" then some m.id
  else (deps.filterMap (fun d => d.exportsAll.lookup n)).head?

/-- Spec-side description of the namespace-conflict warnings: walking the
internal export-all targets in order, each name of a target's exportsAll
that is already present (a local non-default export, or a name carried by
an earlier target) produces exactly one warning; present names accumulate
either way. -/
def specWarnAux (importerId : String) (present : List String) :
    List Module → List Warning
  | [] => []
  | d :: ds =>
      (d.exportsAll.filter (fun nv => nv.1 ∈ present)).map
        (fun nv => Warning.namespaceConflict nv.1 importerId d.id)
      ++ specWarnAux importerId (present ++ d.exportsAll.map (fun nv => nv.1)) ds

/-- Spec-side description of the namespace-conflict warnings emitted for a
module, starting from its local non-default exports. -/
def specNamespaceWarnings (m : Module) (deps : List Module) : List Warning :=
  specWarnAux m.id (m.exports.filter (fun n => n ≠ "default")) deps

/-- Registry entry of the interleaving model: enough of a Module /
ExternalModule to state the identity invariant. -/
inductive CEntity where
  | mod (uid : Nat) (isEntryPoint : Bool)
  | ext (uid : Nat)
  deriving DecidableEq, Repr

/-- One resolved dependency edge of the interleaving model: the target id
and whether its resolution is external. -/
structure CDep where
  id : String
  external : Bool
  deriving DecidableEq, Repr

/-- Dependency oracle of the interleaving model: for each module id, the
resolved dependencies (static and dynamic) whose fetches are spawned once
that module's load and transform complete. -/
structure CEnv where
  deps : String → List CDep

/-- Tasks of the interleaving model.  Each constructor stands for one
synchronous segment of the source, delimited by its await points:
fetchStart is the synchronous prefix of fetchModule (lines 276-292 —
registry check, Module creation and registration all happen before the
load hook is awaited); fetchLoaded is the continuation after the load and
transform awaits, which spawns the dependency fetches; fetchResolvedDep is
the body of fetchResolvedDependency (lines 357-378) reached after the
dependency's resolution await — its external branch checks, creates and
registers synchronously, and its internal branch enters fetchModule's
synchronous prefix within the same segment. -/
inductive CTask where
  | fetchStart (id : String) (isEntry : Bool)
  | fetchLoaded (id : String)
  | fetchResolvedDep (id : String) (external : Bool)
  deriving DecidableEq, Repr

/-- State of the interleaving model: the shared registry, the creation
counter, and the ghost log of entity creations. -/
structure CState where
  reg : List (String × CEntity) := []
  nextUid : Nat := 0
  created : List (String × Nat) := []
  deriving DecidableEq, Repr

/-- The synchronous prefix of fetchModule (lines 276-292): an existing
external entry is the thrown error (no registry change); an existing
module gets isEntry OR-ed into isEntryPoint and is observed as-is; a fresh
id creates and registers a new Module before anything is awaited, then
proceeds to the load await. -/
def fetchStartStep (s : CState) (id : String) (isEntry : Bool) : CState × List CTask :=
  match s.reg.lookup id with
  | some (.ext _) => (s, [])
  | some (.mod uid ep) =>
      ({ s with reg := setA s.reg id (.mod uid (ep || isEntry)) }, [])
  | none =>
      ({ reg := setA s.reg id (.mod s.nextUid isEntry),
         nextUid := s.nextUid + 1,
         created := s.created ++ [(id, s.nextUid)] },
       [.fetchLoaded id])

/-- One atomic step of the interleaving model. -/
def cstep (env : CEnv) (s : CState) : CTask → CState × List CTask
  | .fetchStart id isEntry => fetchStartStep s id isEntry
  | .fetchLoaded id =>
      (s, (env.deps id).map (fun d => .fetchResolvedDep d.id d.external))
  | .fetchResolvedDep id external =>
      if external then
        match s.reg.lookup id with
        | none =>
            ({ reg := setA s.reg id (.ext s.nextUid),
               nextUid := s.nextUid + 1,
               created := s.created ++ [(id, s.nextUid)] }, [])
        | some _ => (s, [])
      else fetchStartStep s id false

/-- Selection of the next task from a nonempty pending queue: the
schedule entry picks an index (reduced modulo the queue length, which
keeps every index in range, so the getD default is never used), yielding
the chosen task and the remaining queue. -/
def pickTask (pick : Nat) (t : CTask) (ts : List CTask) : CTask × List CTask :=
  ((t :: ts).getD (pick % (t :: ts).length) t,
   (t :: ts).eraseIdx (pick % (t :: ts).length))

/-- Run the interleaving model under an arbitrary schedule: at every round
the schedule picks which pending task runs its next synchronous segment,
and the segment's spawned continuations join the pending queue. -/
def runC (env : CEnv) : List Nat → CState → List CTask → CState
  | [], s, _ => s
  | _ :: _, s, [] => s
  | pick :: sched, s, t :: ts =>
      match pickTask pick t ts with
      | (tk, rest) =>
          match cstep env s tk with
          | (s', spawned) => runC env sched s' (rest ++ spawned)

/-- Counting helper for the interleaving model: how many entity creations
the ghost log records for one id. -/
def createdCount (s : CState) (id : String) : Nat :=
  (s.created.filter (fun p => p.1 = id)).length

/-- A small concrete environment for evaluating the model: no external
configuration, side effects on, no plugins resolving anything, every load
yielding plain code with no dependencies. -/
def wEnv : Env where
  externalOption := .bool false
  moduleSideEffectsOption := .bool true
  pureExternalModules := .bool false
  getManualChunk := fun _ => none
  resolveIdHook := fun _ _ => .nul
  loadHook := fun _ => .ok (.str "code")
  resolveDynamicImportHook := fun _ _ => .nul
  cachedModules := fun _ => none
  transformInfo := fun _ => {}
  isRel := fun s => strStartsWith s "./" || strStartsWith s "../"
  resolvePath := fun _ src => src

/-- A registered module used by concrete evaluations. -/
def wModule : Module :=
  { uid := 0, id := "m", moduleSideEffects := true, isEntryPoint := false }

/-- A state whose registry holds one module and one external module. -/
def wState : LoaderState :=
  { modulesById := [("m", .mod wModule),
                    ("x", .ext { uid := 1, id := "x", moduleSideEffects := true })],
    nextUid := 2 }

/-- A module already assigned to the manual chunk grp and already present
once in grp's list. -/
def c6Module : Module :=
  { uid := 0, id := "x", moduleSideEffects := true, isEntryPoint := false,
    manualChunkAlias := some "grp" }

/-- The state in which c6Module is registered and listed once under
grp. -/
def c6State : LoaderState :=
  { modulesById := [("x", .mod c6Module)], manualChunkModules := [("grp", ["x"])],
    nextUid := 1 }

/-- An environment whose entry resolveId hook exercises every result shape
of loadEntryModule. -/
def c7Env : Env :=
  { wEnv with resolveIdHook := fun spec imp =>
      match imp with
      | none =>
          if spec = "ext" then .fls
          else if spec = "extobj" then .obj "e" true none
          else if spec = "miss" then .nul
          else if spec = "good" then .str "resolved"
          else .obj "objid" false (some false)
      | some _ => .nul }

/-- An environment in which module a has one dynamic import of the
unresolvable relative specifier ./missing and no static imports. -/
def c4Env : Env :=
  { wEnv with
      transformInfo := fun _ => { dynamicImports := [.str "./missing"] },
      isRel := fun s => s == "./missing" }

/-- A module whose only dependency is the unresolvable relative dynamic
specifier ./missing, with no static imports. -/
def c4Module : Module :=
  { uid := 0, id := "a", moduleSideEffects := true, isEntryPoint := false,
    dynamicImportSpecs := [.str "./missing"], dynamicImports := [none] }

/-- The state in which c4Module is registered. -/
def c4State : LoaderState := { modulesById := [("a", .mod c4Module)], nextUid := 1 }

/-- Invariant of the interleaving model: every id has been created at most
once, every created id is still registered, and the registry keys are
duplicate-free. -/
def CInv (s : CState) : Prop :=
  (∀ id, createdCount s id ≤ 1) ∧
  (∀ id, id ∈ s.created.map (fun p => p.1) → (s.reg.lookup id).isSome) ∧
  (s.reg.map (fun p => p.1)).Nodup

/-- Module a of the re-export diamond: it carries x from itself. -/
def c9A : Module :=
  { uid := 1, id := "a", moduleSideEffects := true, isEntryPoint := false,
    exportsAll := [("x", "a")] }

/-- Module b of the re-export diamond: it also carries x, from itself. -/
def c9B : Module :=
  { uid := 2, id := "b", moduleSideEffects := true, isEntryPoint := false,
    exportsAll := [("x", "b")] }

/-- Module c of the re-export diamond: one local export besides default,
and export-all sources resolving to a, b and the external e in order. -/
def c9C : Module :=
  { uid := 0, id := "c", moduleSideEffects := true, isEntryPoint := true,
    exports := ["local", "default"],
    exportAllSources := ["./a", "./b", "./e"],
    resolvedIds :=
      [("./a", { id := "a", external := false, moduleSideEffects := true }),
       ("./b", { id := "b", external := false, moduleSideEffects := true }),
       ("./e", { id := "e", external := true, moduleSideEffects := true })] }

/-- Registry oracle for the re-export diamond. -/
def c9GetEntity : String → Option Entity := fun i =>
  if i = "a" then some (.mod c9A)
  else if i = "b" then some (.mod c9B)
  else if i = "e" then some (.ext { uid := 3, id := "e", moduleSideEffects := true })
  else none

/-! Small shared lemmas about the association-list primitives. -/

theorem lookup_setA_self {α : Type} (l : List (String × α)) (k : String) (v : α) :
    (setA l k v).lookup k = some v := by
  induction l with
  | nil => simp [setA]
  | cons p t ih =>
      rcases p with ⟨k', v'⟩
      by_cases h : k' = k
      · subst h
        simp [setA]
      · have hbeq : (k == k') = false := beq_eq_false_iff_ne.mpr (Ne.symm h)
        simp [setA, h, List.lookup, hbeq, ih]

theorem lookup_setA_ne {α : Type} (l : List (String × α)) (k k' : String) (v : α)
    (h : k' ≠ k) : (setA l k v).lookup k' = l.lookup k' := by
  have hbeq : (k' == k) = false := beq_eq_false_iff_ne.mpr h
  induction l with
  | nil => simp [setA, List.lookup, hbeq]
  | cons p t ih =>
      rcases p with ⟨k0, v0⟩
      by_cases h0 : k0 = k
      · subst h0
        simp [setA, List.lookup, hbeq]
      · simp [setA, h0, List.lookup, ih]

theorem mem_keys_setA {α : Type} (l : List (String × α)) (k x : String) (v : α) :
    x ∈ (setA l k v).map (fun p => p.1) ↔ x ∈ l.map (fun p => p.1) ∨ x = k := by
  induction l with
  | nil => simp [setA]
  | cons p t ih =>
      rcases p with ⟨k0, v0⟩
      by_cases h0 : k0 = k
      · subst h0
        simp [setA]
        tauto
      · simp [setA, h0, ih]
        tauto

theorem nodup_keys_setA {α : Type} (l : List (String × α)) (k : String) (v : α)
    (h : (l.map (fun p => p.1)).Nodup) : ((setA l k v).map (fun p => p.1)).Nodup := by
  induction l with
  | nil => simp [setA]
  | cons p t ih =>
      rcases p with ⟨k0, v0⟩
      by_cases h0 : k0 = k
      · subst h0
        simpa [setA] using h
      · simp only [List.map_cons, List.nodup_cons] at h
        simp only [setA, if_neg h0, List.map_cons, List.nodup_cons]
        refine ⟨?_, ih h.2⟩
        intro hmem
        rcases (mem_keys_setA t k k0 v).mp hmem with h1 | h1
        · exact h.1 h1
        · exact h0 h1

/-! Theorems for the explicit claims about the predicate builders and the
small stateless operations. -/

/-- C8: for an id with the internal sentinel prefix, the external
predicate built from a callback option is false whatever the callback
answers, and the side-effects predicate built from a callback option is
true with the callback never consulted (both stated for every callback);
for any other id the external predicate is exactly the truthiness of the
callback's result and the side-effects predicate is false exactly when the
callback explicitly returns false. -/
theorem c8_sentinel_prefix_callbacks {α : Type} (f : String → α → Option Bool)
    (g : String → Bool → Option Bool) (pureOpt : IdOption Unit) (id : String) (a : α)
    (ext : Bool) :
    (strStartsWith id "\x00" = true →
      getIdMatcher (.func f) id a = false ∧
      getHasModuleSideEffects (.func g) pureOpt id ext = true) ∧
    (strStartsWith id "\x00" = false →
      getIdMatcher (.func f) id a = (f id a).getD false ∧
      getHasModuleSideEffects (.func g) pureOpt id ext = !((g id ext) == some false)) := by
  constructor <;> intro h <;> simp [getIdMatcher, getHasModuleSideEffects, h]

/-- Witness for C8 at concrete ids, one with and one without the sentinel
prefix. -/
theorem c8_sentinel_prefix_callbacks_witness :
    getIdMatcher (IdOption.func (fun _ (_ : Unit) => some true)) "\x00virtual" () = false ∧
    getHasModuleSideEffects (.func (fun _ _ => some false)) (.bool false) "\x00virtual" true
      = true ∧
    getIdMatcher (IdOption.func (fun _ (_ : Unit) => some true)) "plain" () = true ∧
    getHasModuleSideEffects (.func (fun _ _ => some false)) (.bool false) "plain" true
      = false := by
  refine ⟨?_, ?_, ?_, ?_⟩
  · exact ((c8_sentinel_prefix_callbacks (fun _ (_ : Unit) => some true)
      (fun _ _ => some false) (.bool false) "\x00virtual" () true).1 (by decide)).1
  · exact ((c8_sentinel_prefix_callbacks (fun _ (_ : Unit) => some true)
      (fun _ _ => some false) (.bool false) "\x00virtual" () true).1 (by decide)).2
  · simpa using ((c8_sentinel_prefix_callbacks (fun _ (_ : Unit) => some true)
      (fun _ _ => some false) (.bool false) "plain" () true).2 (by decide)).1
  · simpa using ((c8_sentinel_prefix_callbacks (fun _ (_ : Unit) => some true)
      (fun _ _ => some false) (.bool false) "plain" () true).2 (by decide)).2

/-- C10: a truthy option value that is neither true, nor a callback, nor
an array — modelled as a nonempty string — makes the matcher accept
exactly that one id. -/
theorem c10_scalar_option_single_id {α : Type} (s : String) (h : s.isEmpty = false)
    (id : String) (a : α) :
    getIdMatcher (.str s) id a = (id == s) := by
  simp [getIdMatcher, h]

/-- Witness for C10 at a concrete single-string option. -/
theorem c10_scalar_option_single_id_witness :
    getIdMatcher (IdOption.str "left-pad") "left-pad" () = true ∧
    getIdMatcher (IdOption.str "left-pad") "other" () = false := by
  constructor
  · simpa using c10_scalar_option_single_id (α := Unit) "left-pad" (by decide) "left-pad" ()
  · simpa using c10_scalar_option_single_id (α := Unit) "left-pad" (by decide) "other" ()

/-- C3: with a null resolution, a relative source is the fatal
unresolved-import error, while a non-relative source records the
treated-as-external warning and yields an external ResolvedId whose id is
the source itself — never a fatal error. -/
theorem c3_missing_import_policy (env : Env) (s : LoaderState) (source importer : String) :
    (env.isRel source = true →
      handleMissingImports env s none source importer =
        .error (.unresolvedImport source importer)) ∧
    (env.isRel source = false →
      handleMissingImports env s none source importer =
        .ok ({ s with warnings :=
                 s.warnings ++ [.unresolvedImportTreatedAsExternal source importer] },
             { id := source, external := true,
               moduleSideEffects := env.hasModuleSideEffects source true })) := by
  constructor <;> intro h <;> simp [handleMissingImports, h]

/-- Witness for C3: a relative and a bare specifier under wEnv. -/
theorem c3_missing_import_policy_witness :
    handleMissingImports wEnv {} none "./x" "a" = .error (.unresolvedImport "./x" "a") ∧
    handleMissingImports wEnv {} none "lodash" "a" =
      .ok ({ warnings := [.unresolvedImportTreatedAsExternal "lodash" "a"] },
           { id := "lodash", external := true, moduleSideEffects := true }) := by
  constructor
  · exact (c3_missing_import_policy wEnv {} "./x" "a").1 (by decide)
  · have h := (c3_missing_import_policy wEnv {} "lodash" "a").2 (by decide)
    simpa using h

/-- C2: fetching an id that is already registered returns without ever
reaching the load hook or the transform stage: an external entry is the
thrown internal-consistency error, and an internal entry is returned with
isEntry OR-ed into its isEntryPoint flag, the state otherwise untouched
(in particular the load-call and transform-call logs). -/
theorem c2_existing_module_fast_path (env : Env) (fuel : Nat) (s : LoaderState)
    (id : String) (importer : Option String) (mse isEntry : Bool) :
    (∀ e, s.modulesById.lookup id = some (.ext e) →
      fetchModule env (fuel + 1) s id importer mse isEntry =
        .error (.cannotFetchExternal id)) ∧
    (∀ m, s.modulesById.lookup id = some (.mod m) →
      fetchModule env (fuel + 1) s id importer mse isEntry =
        .ok ({ s with modulesById := (setA s.modulesById id (.mod { m with isEntryPoint := m.isEntryPoint || isEntry })) },
             { m with isEntryPoint := m.isEntryPoint || isEntry })) := by
  constructor <;> intro x h <;> simp [fetchModule, h]

/-- Witness for C2 on a concrete registry with one module and one external
module. -/
theorem c2_existing_module_fast_path_witness :
    fetchModule wEnv 1 wState "x" none true false = .error (.cannotFetchExternal "x") ∧
    fetchModule wEnv 1 wState "m" none true true =
      .ok ({ wState with modulesById := (setA wState.modulesById "m" (.mod { wModule with isEntryPoint := true })) },
           { wModule with isEntryPoint := true }) := by
  constructor
  · exact (c2_existing_module_fast_path wEnv 0 wState "x" none true false).1
      { uid := 1, id := "x", moduleSideEffects := true } (by decide)
  · have h := (c2_existing_module_fast_path wEnv 0 wState "m" none true true).2
      wModule (by decide)
    simpa [wModule] using h

/-- C7: loadEntryModule consults the resolveId hook with no importer; a
false result or an external-flagged object is the fatal
entry-cannot-be-external error; a null result is the fatal
unresolved-entry error; a string result, or a non-external object result,
is fetched as a module with moduleSideEffects forced to true and with
no importer. -/
theorem c7_entry_resolution (env : Env) (fuel : Nat) (s : LoaderState)
    (unresolvedId : String) (isEntry : Bool) :
    (env.resolveIdHook unresolvedId none = .fls →
      loadEntryModule env fuel s unresolvedId isEntry =
        .error (.entryCannotBeExternal unresolvedId)) ∧
    (∀ oid omse, env.resolveIdHook unresolvedId none = .obj oid true omse →
      loadEntryModule env fuel s unresolvedId isEntry =
        .error (.entryCannotBeExternal unresolvedId)) ∧
    (env.resolveIdHook unresolvedId none = .nul →
      loadEntryModule env fuel s unresolvedId isEntry =
        .error (.unresolvedEntry unresolvedId)) ∧
    (∀ raw, env.resolveIdHook unresolvedId none = .str raw →
      loadEntryModule env fuel s unresolvedId isEntry =
        fetchModule env fuel s raw none true isEntry) ∧
    (∀ oid omse, env.resolveIdHook unresolvedId none = .obj oid false omse →
      loadEntryModule env fuel s unresolvedId isEntry =
        fetchModule env fuel s oid none true isEntry) := by
  refine ⟨?_, ?_, ?_, ?_, ?_⟩ <;> intros <;> simp_all [loadEntryModule]

/-- Witness for C7 exercising all five hook-result shapes. -/
theorem c7_entry_resolution_witness :
    loadEntryModule c7Env 3 {} "ext" true = .error (.entryCannotBeExternal "ext") ∧
    loadEntryModule c7Env 3 {} "extobj" true = .error (.entryCannotBeExternal "extobj") ∧
    loadEntryModule c7Env 3 {} "miss" true = .error (.unresolvedEntry "miss") ∧
    loadEntryModule c7Env 3 {} "good" true = fetchModule c7Env 3 {} "resolved" none true true ∧
    loadEntryModule c7Env 3 {} "other" false =
      fetchModule c7Env 3 {} "objid" none true false := by
  refine ⟨?_, ?_, ?_, ?_, ?_⟩
  · exact (c7_entry_resolution c7Env 3 {} "ext" true).1 (by decide)
  · exact (c7_entry_resolution c7Env 3 {} "extobj" true).2.1 "e" none (by decide)
  · exact (c7_entry_resolution c7Env 3 {} "miss" true).2.2.1 (by decide)
  · exact (c7_entry_resolution c7Env 3 {} "good" true).2.2.2.1 "resolved" (by decide)
  · exact (c7_entry_resolution c7Env 3 {} "other" false).2.2.2.2 "objid" (some false)
      (by decide)

/-- C6 counterexample: re-assigning the same module to the same alias
raises no error but appends the module to the alias's list again — after a
second grp assignment of a module already listed once, the list holds the
module twice, not exactly once as claimed. -/
theorem c6_counterexample_duplicate_listing :
    (match addModuleToManualChunk c6State "grp" c6Module with
     | .ok (s', _) => s'.manualChunkModules.lookup "grp"
     | .error _ => none) = some ["x", "x"] ∧ (["x", "x"].count "x" ≠ 1) := by
  constructor
  · rfl
  · decide

/-- C6 (amended): assigning a module that already carries a different
alias is the fatal conflict error; assigning with no prior alias or with
the same alias raises no error, records the alias on the module, and
appends the module's id to the alias's list unconditionally — so a
repeated same-alias assignment lists the module once per assignment rather
than exactly once. -/
theorem c6_manual_chunk_assignment (s : LoaderState) (aliasName : String) (m : Module) :
    (∀ prev, m.manualChunkAlias = some prev → prev ≠ aliasName →
      addModuleToManualChunk s aliasName m =
        .error (.cannotAssignModuleToChunk m.id aliasName (some prev))) ∧
    ((m.manualChunkAlias = none ∨ m.manualChunkAlias = some aliasName) →
      addModuleToManualChunk s aliasName m =
        .ok ({ s with
                 modulesById := setA s.modulesById m.id
                   (.mod { m with manualChunkAlias := some aliasName }),
                 manualChunkModules := setA s.manualChunkModules aliasName
                   (((s.manualChunkModules.lookup aliasName).getD []) ++ [m.id]) },
             { m with manualChunkAlias := some aliasName }) ∧
      (setA s.manualChunkModules aliasName
          (((s.manualChunkModules.lookup aliasName).getD []) ++ [m.id])).lookup aliasName =
        some (((s.manualChunkModules.lookup aliasName).getD []) ++ [m.id])) := by
  constructor
  · intro prev hprev hne
    simp [addModuleToManualChunk, hprev, hne]
  · intro hcase
    refine ⟨?_, lookup_setA_self _ _ _⟩
    rcases hcase with hnone | hsame
    · simp [addModuleToManualChunk, hnone]
    · simp [addModuleToManualChunk, hsame]

/-- Witness for the amended C6: the conflict error on a different alias,
and the appending same-alias re-assignment. -/
theorem c6_manual_chunk_assignment_witness :
    addModuleToManualChunk c6State "other" c6Module =
      .error (.cannotAssignModuleToChunk "x" "other" (some "grp")) ∧
    addModuleToManualChunk c6State "grp" c6Module =
      .ok ({ c6State with
               modulesById := setA c6State.modulesById "x"
                 (.mod { c6Module with manualChunkAlias := some "grp" }),
               manualChunkModules := setA c6State.manualChunkModules "grp"
                 (((c6State.manualChunkModules.lookup "grp").getD []) ++ ["x"]) },
           { c6Module with manualChunkAlias := some "grp" }) := by
  constructor
  · exact (c6_manual_chunk_assignment c6State "other" c6Module).1 "grp" rfl (by decide)
  · exact ((c6_manual_chunk_assignment c6State "grp" c6Module).2 (Or.inr rfl)).1

/-- C4 counterexample: module a's only dependency is the dynamic import of
the relative specifier ./missing, which no plugin resolves, so that
module's dynamic-import batch fails; but the enclosing fetchModule call
for a rejects with exactly that failure instead of completing
successfully.  The no-op catch handler attached to the dynamic batch
(lines 260-262) only suppresses an unhandled-rejection report; the batch
promise is returned from — and thereby adopted by — the promise that
fetchModule awaits at line 333, so the failure propagates. -/
theorem c4_counterexample_dynamic_failure_propagates :
    fetchModule c4Env 8 {} "a" none true false =
      .error (.unresolvedImport "./missing" "a") ∧
    (fetchModule c4Env 8 {} "a" none true false).isOk = false := by
  refine ⟨?_, ?_⟩
  · rfl
  · rfl

/-- C4 (amended): the failure routing of a module's dependency fetches: a
static-dependency batch failure propagates (and takes precedence, since
the dynamic batch is only adopted after the static await succeeds), and
with the static batch succeeding a dynamic-import batch failure also
propagates and fails the enclosing fetch — it is not swallowed; only when
both batches succeed does the dependency stage complete. -/
theorem c4_dependency_failure_routing (env : Env) (fuel : Nat) (s : LoaderState)
    (modId : String) (m : Module) (s1 s2 : LoaderState) (dynErr statErr : Option BuildErr)
    (hm : getModule s modId = some m)
    (hdyn : runDynamicImports env fuel s modId m.dynamicImportSpecs.enum = (s1, dynErr))
    (hstat : runStaticDeps env fuel s1 modId m.sources = (s2, statErr)) :
    (∀ e, statErr = some e →
       fetchAllDependencies env (fuel + 1) s modId = .error e) ∧
    (statErr = none → ∀ e, dynErr = some e →
       fetchAllDependencies env (fuel + 1) s modId = .error e) ∧
    (statErr = none → dynErr = none →
       fetchAllDependencies env (fuel + 1) s modId = .ok s2) := by
  refine ⟨?_, ?_, ?_⟩
  · intro e he
    subst he
    simp [fetchAllDependencies, hm, hdyn, hstat]
  · intro hsnone e hdsome
    subst hsnone
    subst hdsome
    simp [fetchAllDependencies, hm, hdyn, hstat]
  · intro hsnone hdnone
    subst hsnone
    subst hdnone
    simp [fetchAllDependencies, hm, hdyn, hstat]

/-- Witness for the amended C4: the registered module c4Module has a
failing dynamic-import batch and a succeeding (empty) static batch, and
its dependency stage fails with the dynamic batch's error. -/
theorem c4_dependency_failure_routing_witness :
    fetchAllDependencies c4Env 5 c4State "a" =
      .error (.unresolvedImport "./missing" "a") := by
  exact (c4_dependency_failure_routing c4Env 4 c4State "a" c4Module
      (runDynamicImports c4Env 4 c4State "a" c4Module.dynamicImportSpecs.enum).1
      (runStaticDeps c4Env 4
        (runDynamicImports c4Env 4 c4State "a" c4Module.dynamicImportSpecs.enum).1 "a"
        c4Module.sources).1
      (some (.unresolvedImport "./missing" "a")) none
      (by rfl) (by rfl) (by rfl)).2.1 rfl (.unresolvedImport "./missing" "a") rfl

/-! Lemmas for the interleaving model's registry invariant. -/

theorem filter_id_eq_nil_of_not_mem (c : List (String × Nat)) (id : String)
    (h : id ∉ c.map (fun p => p.1)) :
    c.filter (fun p => p.1 = id) = [] := by
  induction c with
  | nil => rfl
  | cons p t ih =>
      simp only [List.map_cons, List.mem_cons] at h
      push_neg at h
      simp [List.filter, Ne.symm h.1, ih h.2]

theorem lookup_isSome_setA {α : Type} (l : List (String × α)) (k k' : String) (v : α)
    (h : (l.lookup k').isSome) : ((setA l k v).lookup k').isSome := by
  by_cases hk : k' = k
  · subst hk
    simp [lookup_setA_self]
  · rwa [lookup_setA_ne l k k' v hk]

/-- Registering a brand-new entity (the creation branches of
fetchStartStep and of the external get-or-create) preserves the
invariant. -/
theorem cInv_register_new (s : CState) (id : String) (ent : CEntity)
    (hl : s.reg.lookup id = none) (h : CInv s) :
    CInv { reg := setA s.reg id ent, nextUid := s.nextUid + 1,
           created := s.created ++ [(id, s.nextUid)] } := by
  rcases h with ⟨h1, h2, h3⟩
  have hnot : id ∉ s.created.map (fun p => p.1) := by
    intro hmem
    have hs := h2 id hmem
    rw [hl] at hs
    simp at hs
  refine ⟨?_, ?_, ?_⟩
  · intro i
    by_cases hi : i = id
    · subst hi
      simp only [createdCount, List.filter_append]
      rw [filter_id_eq_nil_of_not_mem s.created i hnot]
      simp
    · have hfi : List.filter (fun p => decide (p.1 = i)) [(id, s.nextUid)] = [] := by
        simp [List.filter, Ne.symm hi]
      have hcc := h1 i
      simp only [createdCount, List.filter_append] at hcc ⊢
      rw [hfi]
      simpa using hcc
  · intro i hmem
    simp only [List.map_append, List.mem_append, List.map_cons, List.mem_singleton] at hmem
    rcases hmem with hmem | hmem
    · exact lookup_isSome_setA s.reg id i ent (h2 i hmem)
    · simp only [List.map_cons, List.map_nil, List.mem_singleton] at hmem
      subst hmem
      simp [lookup_setA_self]
  · exact nodup_keys_setA s.reg id ent h3

/-- Re-writing an existing entry in place (the OR-update of isEntryPoint)
preserves the invariant. -/
theorem cInv_update_existing (s : CState) (id : String) (ent : CEntity) (h : CInv s) :
    CInv { s with reg := setA s.reg id ent } := by
  rcases h with ⟨h1, h2, h3⟩
  exact ⟨h1, fun i hmem => lookup_isSome_setA s.reg id i ent (h2 i hmem),
         nodup_keys_setA s.reg id ent h3⟩

/-- The synchronous fetchModule prefix preserves the invariant. -/
theorem cInv_fetchStartStep (s : CState) (id : String) (isEntry : Bool) (h : CInv s) :
    CInv (fetchStartStep s id isEntry).1 := by
  unfold fetchStartStep
  cases hl : s.reg.lookup id with
  | none => exact cInv_register_new s id (.mod s.nextUid isEntry) hl h
  | some ent =>
      cases ent with
      | ext uid => exact h
      | mod uid ep => exact cInv_update_existing s id (.mod uid (ep || isEntry)) h

/-- Every atomic step of the interleaving model preserves the
invariant. -/
theorem cInv_cstep (env : CEnv) (s : CState) (t : CTask) (h : CInv s) :
    CInv (cstep env s t).1 := by
  cases t with
  | fetchStart id isEntry => exact cInv_fetchStartStep s id isEntry h
  | fetchLoaded id => exact h
  | fetchResolvedDep id external =>
      unfold cstep
      by_cases hx : external = true
      · subst hx
        simp only [if_true]
        cases hl : s.reg.lookup id with
        | none => exact cInv_register_new s id (.ext s.nextUid) hl h
        | some ent => exact h
      · simp only [Bool.not_eq_true] at hx
        subst hx
        simp only [Bool.false_eq_true, if_false]
        exact cInv_fetchStartStep s id false h

/-- Any run of the interleaving model preserves the invariant. -/
theorem cInv_runC (env : CEnv) (sched : List Nat) (s : CState) (tasks : List CTask)
    (h : CInv s) : CInv (runC env sched s tasks) := by
  induction sched generalizing s tasks with
  | nil => simpa [runC] using h
  | cons pick rest ih =>
      cases tasks with
      | nil => simpa [runC] using h
      | cons t ts =>
          rcases hp : pickTask pick t ts with ⟨tk, rest2⟩
          rcases hc : cstep env s tk with ⟨s', spawned⟩
          have hstep := cInv_cstep env s tk h
          rw [hc] at hstep
          simpa only [runC, hp, hc] using ih s' (rest2 ++ spawned) hstep

/-- C1: for every dependency oracle, every initial task set (fetches
spawned by fetchModule, fetchResolvedDependency, addEntryModules or
addManualChunks) and every cooperative schedule, a run of the interleaving
model from the empty build state creates at most one entity (Module or
ExternalModule) per id, and the registry holds at most one entry per id.
Each check-create-register segment (fetchModule lines 276-292 and the
external branch of fetchResolvedDependency, lines 362-374) is one atomic
step — the new Module is registered before any asynchronous load is
awaited — so a second fetch of the same id observes the existing entry
instead of creating a duplicate. -/
theorem c1_registry_at_most_one_entity_per_id (env : CEnv) (sched : List Nat)
    (tasks : List CTask) (id : String) :
    createdCount (runC env sched {} tasks) id ≤ 1 ∧
    ((runC env sched {} tasks).reg.map (fun p => p.1)).Nodup := by
  have h0 : CInv ({} : CState) := by
    refine ⟨fun i => ?_, fun i hmem => ?_, ?_⟩
    · simp [createdCount]
    · simp at hmem
    · simp
  have h := cInv_runC env sched {} tasks h0
  exact ⟨h.1 id, h.2.2⟩

/-! Lemmas for the entry-index bookkeeping (C5). -/

theorem canonAux_index_bounds (xs : List String) :
    ∀ seen i p, p ∈ canonAux seen i xs → i ≤ p.1 ∧ p.1 < i + xs.length := by
  induction xs with
  | nil =>
      intro seen i p hp
      simp [canonAux] at hp
  | cons x t ih =>
      intro seen i p hp
      simp only [canonAux] at hp
      by_cases hx : x ∈ seen
      · rw [if_pos hx] at hp
        have hb := ih seen (i + 1) p hp
        simp only [List.length_cons]
        omega
      · rw [if_neg hx] at hp
        rcases List.mem_cons.mp hp with hp | hp
        · subst hp
          simp only [List.length_cons]
          omega
        · have hb := ih (x :: seen) (i + 1) p hp
          simp only [List.length_cons]
          omega

theorem canonAux_chain (xs : List String) :
    ∀ seen i, List.Chain' (fun p q => p.1 < q.1) (canonAux seen i xs) := by
  induction xs with
  | nil => intro seen i; simp [canonAux]
  | cons x t ih =>
      intro seen i
      simp only [canonAux]
      by_cases hx : x ∈ seen
      · simpa [hx] using ih seen (i + 1)
      · rw [if_neg hx]
        refine List.chain'_cons'.mpr ⟨?_, ih (x :: seen) (i + 1)⟩
        intro q hq
        have hmem : q ∈ canonAux (x :: seen) (i + 1) t := List.mem_of_mem_head? hq
        have hb := canonAux_index_bounds t (x :: seen) (i + 1) q hmem
        omega

theorem mem_canonAux_ids (xs : List String) :
    ∀ seen i x, x ∈ (canonAux seen i xs).map (fun p => p.2) ↔ (x ∈ xs ∧ x ∉ seen) := by
  induction xs with
  | nil => intro seen i x; simp [canonAux]
  | cons x0 t ih =>
      intro seen i x
      simp only [canonAux]
      by_cases hx : x0 ∈ seen
      · rw [if_pos hx, ih seen (i + 1) x]
        constructor
        · rintro ⟨h1, h2⟩
          exact ⟨List.mem_cons_of_mem x0 h1, h2⟩
        · rintro ⟨h1, h2⟩
          rcases List.mem_cons.mp h1 with h1 | h1
          · subst h1; exact absurd hx h2
          · exact ⟨h1, h2⟩
      · rw [if_neg hx]
        simp only [List.map_cons, List.mem_cons, ih (x0 :: seen) (i + 1) x,
          List.mem_cons]
        constructor
        · rintro (h1 | ⟨h1, h2⟩)
          · subst h1; exact ⟨Or.inl rfl, hx⟩
          · push_neg at h2
            exact ⟨Or.inr h1, h2.2⟩
        · rintro ⟨h1 | h1, h2⟩
          · subst h1; exact Or.inl rfl
          · by_cases he : x = x0
            · exact Or.inl he
            · exact Or.inr ⟨h1, by simp [he, h2]⟩

theorem canonAux_append_dup (xs : List String) :
    ∀ seen i e, (e ∈ seen ∨ e ∈ xs) → canonAux seen i (xs ++ [e]) = canonAux seen i xs := by
  induction xs with
  | nil =>
      intro seen i e he
      rcases he with he | he
      · simp [canonAux, he]
      · simp at he
  | cons x t ih =>
      intro seen i e he
      simp only [List.cons_append, canonAux, List.append_eq]
      by_cases hx : x ∈ seen
      · rw [if_pos hx, if_pos hx, ih seen (i + 1) e]
        rcases he with he | he
        · exact Or.inl he
        · rcases List.mem_cons.mp he with he | he
          · subst he; exact Or.inl hx
          · exact Or.inr he
      · rw [if_neg hx, if_neg hx, ih (x :: seen) (i + 1) e]
        rcases he with he | he
        · exact Or.inl (List.mem_cons_of_mem x he)
        · rcases List.mem_cons.mp he with he | he
          · subst he; exact Or.inl (List.mem_cons_self _ _)
          · exact Or.inr he

theorem canonAux_append_new (xs : List String) :
    ∀ seen i e, e ∉ seen → e ∉ xs →
      canonAux seen i (xs ++ [e]) = canonAux seen i xs ++ [(i + xs.length, e)] := by
  induction xs with
  | nil =>
      intro seen i e hseen _
      simp [canonAux, hseen]
  | cons x t ih =>
      intro seen i e hseen hxs
      have hex : e ≠ x := by intro h; exact hxs (h ▸ List.mem_cons_self _ _)
      have het : e ∉ t := fun h => hxs (List.mem_cons_of_mem x h)
      simp only [List.cons_append, canonAux, List.append_eq]
      have harith : i + 1 + t.length = i + (x :: t).length := by
        simp only [List.length_cons]
        omega
      by_cases hx : x ∈ seen
      · rw [if_pos hx, if_pos hx, ih seen (i + 1) e hseen het, harith]
      · rw [if_neg hx, if_neg hx, ih (x :: seen) (i + 1) e (by simp [hex, hseen]) het,
          harith]
        simp [List.cons_append]

theorem mergeEntryModule_found (idx : List (Nat × String)) (j : Nat) (e : String)
    (hall : ∀ q ∈ idx, q.1 ≤ j) (hmem : e ∈ idx.map (fun p => p.2)) :
    mergeEntryModule idx j e = idx := by
  induction idx with
  | nil => simp at hmem
  | cons q t ih =>
      rcases q with ⟨j0, x0⟩
      by_cases hx : x0 = e
      · subst hx
        rw [mergeEntryModule, if_pos rfl]
        have hle : j0 ≤ j := hall (j0, x0) (List.mem_cons_self _ _)
        have hmin : Nat.min j0 j = j0 := Nat.min_eq_left hle
        rw [hmin]
      · rw [mergeEntryModule, if_neg hx]
        congr 1
        refine ih (fun q hq => hall q (List.mem_cons_of_mem _ hq)) ?_
        simp only [List.map_cons, List.mem_cons] at hmem
        rcases hmem with hmem | hmem
        · exact absurd hmem.symm hx
        · exact hmem

theorem mergeEntryModule_not_found (idx : List (Nat × String)) (j : Nat) (e : String)
    (hmem : e ∉ idx.map (fun p => p.2)) :
    mergeEntryModule idx j e = idx ++ [(j, e)] := by
  induction idx with
  | nil => rfl
  | cons q t ih =>
      rcases q with ⟨j0, x0⟩
      simp only [List.map_cons, List.mem_cons] at hmem
      push_neg at hmem
      rw [mergeEntryModule, if_neg (fun h => hmem.1 h.symm)]
      rw [List.cons_append]
      congr 1
      exact ih hmem.2

theorem mergeEntryModulesLoop_canon (b : List String) :
    ∀ p, mergeEntryModulesLoop (canonAux [] 0 p) p.length b = canonAux [] 0 (p ++ b) := by
  induction b with
  | nil => intro p; simp [mergeEntryModulesLoop]
  | cons e rest ih =>
      intro p
      rw [mergeEntryModulesLoop]
      have hstep : mergeEntryModule (canonAux [] 0 p) p.length e = canonAux [] 0 (p ++ [e]) := by
        by_cases he : e ∈ p
        · rw [mergeEntryModule_found (canonAux [] 0 p) p.length e ?_ ?_]
          · rw [canonAux_append_dup p [] 0 e (Or.inr he)]
          · intro q hq
            have hb := canonAux_index_bounds p [] 0 q hq
            omega
          · rw [mem_canonAux_ids p [] 0 e]
            simp [he]
        · rw [mergeEntryModule_not_found (canonAux [] 0 p) p.length e ?_]
          · rw [canonAux_append_new p [] 0 e (by simp) he]
            simp
          · rw [mem_canonAux_ids p [] 0 e]
            simp [he]
      rw [hstep]
      have hlen : p.length + 1 = (p ++ [e]).length := by simp
      rw [hlen, ih (p ++ [e])]
      congr 1
      simp

theorem sortEntries_eq_of_chain (l : List (Nat × String))
    (h : List.Chain' (fun p q => p.1 < q.1) l) : sortEntries l = l := by
  induction l with
  | nil => rfl
  | cons p t ih =>
      rw [sortEntries, ih h.tail]
      cases t with
      | nil => rfl
      | cons q t2 =>
          have hpq : p.1 < q.1 := (List.chain'_cons.mp h).1
          simp [insertEntry, Nat.le_of_lt hpq]

theorem runEntryBatches_canon (bs : List (List String)) :
    ∀ p, runEntryBatches p.length (canonAux [] 0 p) bs =
      ((p ++ bs.flatten).length, canonAux [] 0 (p ++ bs.flatten)) := by
  induction bs with
  | nil => intro p; simp [runEntryBatches]
  | cons b rest ih =>
      intro p
      rw [runEntryBatches, mergeEntryModulesLoop_canon b p,
        sortEntries_eq_of_chain _ (canonAux_chain _ _ _)]
      have hlen : p.length + b.length = (p ++ b).length := by simp
      rw [hlen, ih (p ++ b)]
      simp [List.append_assoc]

theorem mergeEntryLoop_snd (mids : List String) :
    ∀ s idx i u, (mergeEntryLoop s idx i u mids).2 = mergeEntryModulesLoop idx i mids := by
  induction mids with
  | nil => intro s idx i u; rfl
  | cons m rest ih =>
      intro s idx i u
      rw [mergeEntryLoop, mergeEntryModulesLoop]
      exact ih _ _ _ _

/-- C5: over every sequence of addEntryModules calls — modelled by
runEntryBatches, which composes the source's shared-counter bookkeeping
(lines 132-133) with its merge loop and sort (lines 153-169) over the
successive batches of resolved entry-module ids — the indexed entry list
equals the canonical list holding one entry per distinct id, indexed by
the global position of that id's first request (its minimum ever-assigned
index, since re-added ids keep the smaller index) and ordered by that
index; the list is strictly ascending in the index (so the module first
requested at the earliest index comes first regardless of fetch-completion
order, which cannot reorder Promise.all results); the shared counter ends
at the total number of requested specifiers; and the merge loop used by
addEntryModules itself (mergeEntryLoop, which also ORs in
isUserDefinedEntryPoint) computes exactly this pure merge. -/
theorem c5_entry_index_min_and_sorted (batches : List (List String)) :
    (runEntryBatches 0 [] batches).2 = canonAux [] 0 batches.flatten ∧
    List.Chain' (fun p q => p.1 < q.1) (runEntryBatches 0 [] batches).2 ∧
    (runEntryBatches 0 [] batches).1 = batches.flatten.length ∧
    (∀ s idx i isUserDefined mids,
      (mergeEntryLoop s idx i isUserDefined mids).2 = mergeEntryModulesLoop idx i mids) := by
  have h := runEntryBatches_canon batches []
  simp only [List.length_nil, List.nil_append] at h
  have h0 : canonAux [] 0 ([] : List String) = [] := rfl
  rw [h0] at h
  refine ⟨?_, ?_, ?_, ?_⟩
  · rw [h]
  · rw [h]
    exact canonAux_chain batches.flatten [] 0
  · rw [h]
  · intro s idx i u mids
    exact mergeEntryLoop_snd mids s idx i u

/-! Lemmas for the re-export closure (C9). -/

theorem lookup_isSome_iff_mem_keys {α : Type} (l : List (String × α)) (n : String) :
    (l.lookup n).isSome ↔ n ∈ l.map (fun p => p.1) := by
  induction l with
  | nil => simp
  | cons p t ih =>
      rcases p with ⟨k, v⟩
      by_cases h : n = k
      · subst h
        simp [List.lookup]
      · have hbeq : (n == k) = false := beq_eq_false_iff_ne.mpr h
        simp [List.lookup, hbeq, ih, h]

theorem head?_filterMap_cons {α β : Type} (f : α → Option β) (a : α) (l : List α) :
    (List.filterMap f (a :: l)).head? =
      match f a with
      | some b => some b
      | none => (List.filterMap f l).head? := by
  cases h : f a <;> simp [List.filterMap_cons, h]

theorem addLocalExportsList_lookup (mid : String) (exports : List String) :
    ∀ ea n, (addLocalExportsList mid ea exports).lookup n =
      if n ∈ exports ∧ n ≠ "default" then some mid else ea.lookup n := by
  induction exports with
  | nil =>
      intro ea n
      simp [addLocalExportsList]
  | cons x rest ih =>
      intro ea n
      rw [addLocalExportsList, ih]
      by_cases hx : x = "default"
      · have hstep : (if x ≠ "default" then setA ea x mid else ea) = ea := by
          simp [hx]
        rw [hstep]
        by_cases hd : n = "default"
        · simp [hd]
        · have hnx : n ≠ x := by rw [hx]; exact hd
          simp [List.mem_cons, hd, hnx]
      · have hstep : (if x ≠ "default" then setA ea x mid else ea) = setA ea x mid := by
          simp [hx]
        rw [hstep]
        by_cases hnx : n = x
        · subst hnx
          by_cases hmem : n ∈ rest
          · simp [hmem, hx, List.mem_cons]
          · simp [hmem, hx, List.mem_cons, lookup_setA_self]
        · rw [lookup_setA_ne ea x n mid hnx]
          simp [List.mem_cons, hnx]

theorem mergeExportsAllTable_fst_lookup (importerId depId : String)
    (table : List (String × String)) :
    ∀ ea ws n, (mergeExportsAllTable importerId depId (ea, ws) table).1.lookup n =
      if (ea.lookup n).isSome then ea.lookup n else table.lookup n := by
  induction table with
  | nil =>
      intro ea ws n
      cases h : ea.lookup n <;> simp [mergeExportsAllTable, h]
  | cons nv rest ih =>
      intro ea ws n
      rcases nv with ⟨k, v⟩
      rw [mergeExportsAllTable]
      by_cases hk : (ea.lookup k).isSome
      · rw [if_pos hk, ih ea _ n]
        by_cases hn : n = k
        · subst hn
          simp [hk]
        · have hbeq : (n == k) = false := beq_eq_false_iff_ne.mpr hn
          simp [List.lookup, hbeq]
      · rw [if_neg hk, ih (setA ea k v) _ n]
        by_cases hn : n = k
        · subst hn
          have hnone : ea.lookup n = none := by
            cases h2 : ea.lookup n
            · rfl
            · rw [h2] at hk; simp at hk
          simp [lookup_setA_self, hnone, List.lookup]
        · have hbeq : (n == k) = false := beq_eq_false_iff_ne.mpr hn
          rw [lookup_setA_ne ea k n v hn]
          simp [List.lookup, hbeq]

theorem mergeExportsAllTable_snd (importerId depId : String)
    (table : List (String × String)) :
    ∀ ea ws, (table.map (fun p => p.1)).Nodup →
      (mergeExportsAllTable importerId depId (ea, ws) table).2 =
        ws ++ (table.filter (fun nv => (ea.lookup nv.1).isSome)).map
          (fun nv => Warning.namespaceConflict nv.1 importerId depId) := by
  induction table with
  | nil =>
      intro ea ws _
      simp [mergeExportsAllTable]
  | cons nv rest ih =>
      intro ea ws hnd
      rcases nv with ⟨k, v⟩
      simp only [List.map_cons, List.nodup_cons] at hnd
      rw [mergeExportsAllTable]
      by_cases hk : (ea.lookup k).isSome
      · rw [if_pos hk, ih ea _ hnd.2]
        simp [List.filter_cons, hk, List.append_assoc]
      · rw [if_neg hk, ih (setA ea k v) _ hnd.2]
        have hfilter : rest.filter (fun nv => ((setA ea k v).lookup nv.1).isSome) =
            rest.filter (fun nv => (ea.lookup nv.1).isSome) := by
          apply List.filter_congr
          intro q hq
          have hqk : q.1 ≠ k := by
            intro h
            exact hnd.1 (h ▸ List.mem_map_of_mem (fun p => p.1) hq)
          rw [lookup_setA_ne ea k q.1 v hqk]
        rw [hfilter]
        simp [List.filter_cons, hk]

theorem mergeExportAllSources_fst_lookup (getEntity : String → Option Entity) (m : Module)
    (sources : List String) :
    ∀ ea ws n, (mergeExportAllSources getEntity m sources (ea, ws)).1.lookup n =
      if (ea.lookup n).isSome then ea.lookup n
      else ((sources.filterMap (exportAllDepOf getEntity m)).filterMap
              (fun d => d.exportsAll.lookup n)).head? := by
  induction sources with
  | nil =>
      intro ea ws n
      cases h : ea.lookup n <;> simp [mergeExportAllSources, h]
  | cons source rest ih =>
      intro ea ws n
      rw [mergeExportAllSources]
      cases hr : m.resolvedIds.lookup source with
      | none =>
          have hdep : exportAllDepOf getEntity m source = none := by
            simp [exportAllDepOf, hr]
          simp only [hr, Option.map_none']
          rw [ih ea ws n]
          simp [List.filterMap_cons, hdep]
      | some r =>
          cases hg : getEntity r.id with
          | none =>
              have hdep : exportAllDepOf getEntity m source = none := by
                simp [exportAllDepOf, hr, hg]
              simp only [hr, Option.map_some', hg]
              rw [ih ea ws n]
              simp [List.filterMap_cons, hdep]
          | some ent =>
              cases ent with
              | ext e =>
                  have hdep : exportAllDepOf getEntity m source = none := by
                    simp [exportAllDepOf, hr, hg]
                  simp only [hr, Option.map_some', hg]
                  rw [ih ea ws n]
                  simp [List.filterMap_cons, hdep]
              | mod dep =>
                  have hdep : exportAllDepOf getEntity m source = some dep := by
                    simp [exportAllDepOf, hr, hg]
                  simp only [hr, Option.map_some', hg]
                  rcases ht : mergeExportsAllTable m.id dep.id (ea, ws) dep.exportsAll
                    with ⟨ea1, ws1⟩
                  rw [ih ea1 ws1 n]
                  have hlkp : ea1.lookup n =
                      if (ea.lookup n).isSome then ea.lookup n
                      else dep.exportsAll.lookup n := by
                    have := mergeExportsAllTable_fst_lookup m.id dep.id dep.exportsAll ea ws n
                    rw [ht] at this
                    exact this
                  rw [List.filterMap_cons, hdep]
                  rw [head?_filterMap_cons]
                  by_cases hs : (ea.lookup n).isSome
                  · have he1 : ea1.lookup n = ea.lookup n := by rw [hlkp, if_pos hs]
                    rw [he1, if_pos hs, if_pos hs]
                  · have he1 : ea1.lookup n = dep.exportsAll.lookup n := by
                      rw [hlkp, if_neg hs]
                    rw [he1, if_neg hs]
                    cases hdl : dep.exportsAll.lookup n <;> simp [hdl]

theorem mergeExportAllSources_snd (getEntity : String → Option Entity) (m : Module)
    (sources : List String) :
    ∀ ea ws present,
      (∀ n, (ea.lookup n).isSome ↔ n ∈ present) →
      (∀ d ∈ sources.filterMap (exportAllDepOf getEntity m),
          (d.exportsAll.map (fun p => p.1)).Nodup) →
      (mergeExportAllSources getEntity m sources (ea, ws)).2 =
        ws ++ specWarnAux m.id present (sources.filterMap (exportAllDepOf getEntity m)) := by
  induction sources with
  | nil =>
      intro ea ws present _ _
      simp [mergeExportAllSources, specWarnAux]
  | cons source rest ih =>
      intro ea ws present hpres hnd
      rw [mergeExportAllSources]
      cases hr : m.resolvedIds.lookup source with
      | none =>
          have hdep : exportAllDepOf getEntity m source = none := by
            simp [exportAllDepOf, hr]
          simp only [hr, Option.map_none']
          rw [ih ea ws present hpres ?_]
          · simp [List.filterMap_cons, hdep]
          · intro d hd
            refine hnd d ?_
            rw [List.filterMap_cons, hdep]
            exact hd
      | some r =>
          cases hg : getEntity r.id with
          | none =>
              have hdep : exportAllDepOf getEntity m source = none := by
                simp [exportAllDepOf, hr, hg]
              simp only [hr, Option.map_some', hg]
              rw [ih ea ws present hpres ?_]
              · simp [List.filterMap_cons, hdep]
              · intro d hd
                refine hnd d ?_
                rw [List.filterMap_cons, hdep]
                exact hd
          | some ent =>
              cases ent with
              | ext e =>
                  have hdep : exportAllDepOf getEntity m source = none := by
                    simp [exportAllDepOf, hr, hg]
                  simp only [hr, Option.map_some', hg]
                  rw [ih ea ws present hpres ?_]
                  · simp [List.filterMap_cons, hdep]
                  · intro d hd
                    refine hnd d ?_
                    rw [List.filterMap_cons, hdep]
                    exact hd
              | mod dep =>
                  have hdep : exportAllDepOf getEntity m source = some dep := by
                    simp [exportAllDepOf, hr, hg]
                  have hdnd : (dep.exportsAll.map (fun p => p.1)).Nodup := by
                    refine hnd dep ?_
                    rw [List.filterMap_cons, hdep]
                    exact List.mem_cons_self _ _
                  simp only [hr, Option.map_some', hg]
                  rcases ht : mergeExportsAllTable m.id dep.id (ea, ws) dep.exportsAll
                    with ⟨ea1, ws1⟩
                  have hws1 : ws1 = ws ++ (dep.exportsAll.filter
                      (fun nv => (ea.lookup nv.1).isSome)).map
                      (fun nv => Warning.namespaceConflict nv.1 m.id dep.id) := by
                    have := mergeExportsAllTable_snd m.id dep.id dep.exportsAll ea ws hdnd
                    rw [ht] at this
                    exact this
                  have hlkp1 : ∀ n, ea1.lookup n =
                      if (ea.lookup n).isSome then ea.lookup n
                      else dep.exportsAll.lookup n := by
                    intro n
                    have := mergeExportsAllTable_fst_lookup m.id dep.id dep.exportsAll ea ws n
                    rw [ht] at this
                    exact this
                  have hpres1 : ∀ n, (ea1.lookup n).isSome ↔
                      n ∈ present ++ dep.exportsAll.map (fun nv => nv.1) := by
                    intro n
                    rw [hlkp1 n]
                    by_cases hs : (ea.lookup n).isSome
                    · rw [if_pos hs]
                      simp only [List.mem_append]
                      exact ⟨fun _ => Or.inl ((hpres n).mp hs), fun _ => hs⟩
                    · rw [if_neg hs]
                      rw [lookup_isSome_iff_mem_keys]
                      simp only [List.mem_append]
                      constructor
                      · exact fun h => Or.inr h
                      · intro h
                        rcases h with h | h
                        · exact absurd ((hpres n).mpr h) hs
                        · exact h
                  rw [ih ea1 ws1 (present ++ dep.exportsAll.map (fun nv => nv.1))
                      hpres1 ?_]
                  · rw [hws1]
                    rw [List.filterMap_cons, hdep]
                    rw [specWarnAux]
                    have hfilter : dep.exportsAll.filter
                        (fun nv => (ea.lookup nv.1).isSome) =
                        dep.exportsAll.filter (fun nv => decide (nv.1 ∈ present)) := by
                      apply List.filter_congr
                      intro q _
                      by_cases hq : q.1 ∈ present
                      · simp [hq, (hpres q.1).mpr hq]
                      · cases h2 : (ea.lookup q.1).isSome
                        · simp [hq]
                        · exact absurd ((hpres q.1).mp h2) hq
                    rw [hfilter, List.append_assoc]
                  · intro d hd
                    refine hnd d ?_
                    rw [List.filterMap_cons, hdep]
                    exact List.mem_cons_of_mem _ hd

/-- C9: after the dependencies are fetched, the re-export closure computed
by fetchModule (lines 334-351) — starting from an empty exportsAll, as a
freshly created module has — maps every locally exported name other than
default to the module's own id; maps every other name to the value carried
by the first (in export-all-source order) internal export-all target whose
exportsAll carries it (first processed source wins, the existing mapping
is kept on a conflict); emits exactly one namespace-conflict warning per
merged name that was already present; and takes nothing from export-all
targets that are ExternalModules.  Stated as: the computed table agrees,
name by name, with the spec-side lookup, and the emitted warnings equal
the spec-side warning list (under the registry invariant that each
target's exportsAll has duplicate-free keys, which JavaScript object keys
guarantee). -/
theorem c9_export_all_closure (getEntity : String → Option Entity) (m : Module)
    (hinit : m.exportsAll = [])
    (hnodup : ∀ d ∈ internalExportAllDeps getEntity m,
        (d.exportsAll.map (fun p => p.1)).Nodup) :
    (∀ n, (computeExportsAll getEntity m).1.exportsAll.lookup n =
        specExportsAllLookup m (internalExportAllDeps getEntity m) n) ∧
    (computeExportsAll getEntity m).2 =
      specNamespaceWarnings m (internalExportAllDeps getEntity m) := by
  have hdeps : internalExportAllDeps getEntity (addLocalExports m) =
      internalExportAllDeps getEntity m := rfl
  have hlocal : ∀ n, ((addLocalExports m).exportsAll.lookup n) =
      if n ∈ m.exports ∧ n ≠ "default" then some m.id else none := by
    intro n
    show (addLocalExportsList m.id m.exportsAll m.exports).lookup n = _
    rw [addLocalExportsList_lookup m.id m.exports m.exportsAll n, hinit]
    rfl
  rcases hms : mergeExportAllSources getEntity (addLocalExports m)
      (addLocalExports m).exportAllSources ((addLocalExports m).exportsAll, [])
    with ⟨ea, ws⟩
  have hfst : (computeExportsAll getEntity m).1.exportsAll = ea := by
    rw [computeExportsAll, hms]
  have hsnd : (computeExportsAll getEntity m).2 = ws := by
    rw [computeExportsAll, hms]
  constructor
  · intro n
    rw [hfst]
    have h1 := mergeExportAllSources_fst_lookup getEntity (addLocalExports m)
      (addLocalExports m).exportAllSources (addLocalExports m).exportsAll [] n
    rw [hms] at h1
    have h1' : ea.lookup n =
        if (((addLocalExports m).exportsAll).lookup n).isSome
        then ((addLocalExports m).exportsAll).lookup n
        else (((addLocalExports m).exportAllSources.filterMap
                (exportAllDepOf getEntity (addLocalExports m))).filterMap
                (fun d => d.exportsAll.lookup n)).head? := h1
    rw [h1', hlocal n]
    rw [specExportsAllLookup]
    by_cases hc : n ∈ m.exports ∧ n ≠ "default"
    · simp [hc]
    · simp only [hc, if_false, Option.isSome_none, Bool.false_eq_true]
      rfl
  · rw [hsnd]
    have hpres0 : ∀ n, (((addLocalExports m).exportsAll).lookup n).isSome ↔
        n ∈ m.exports.filter (fun n => n ≠ "default") := by
      intro n
      rw [hlocal n]
      by_cases hc : n ∈ m.exports ∧ n ≠ "default"
      · rw [if_pos hc]
        simp only [Option.isSome_some, true_iff]
        rw [List.mem_filter]
        exact ⟨hc.1, by simp [hc.2]⟩
      · rw [if_neg hc]
        simp only [Option.isSome_none, Bool.false_eq_true, false_iff]
        rw [List.mem_filter]
        intro hcon
        exact hc ⟨hcon.1, by simpa using hcon.2⟩
    have hnd2 : ∀ d ∈ (addLocalExports m).exportAllSources.filterMap
        (exportAllDepOf getEntity (addLocalExports m)),
        (d.exportsAll.map (fun p => p.1)).Nodup := by
      intro d hd
      exact hnodup d hd
    have h2 := mergeExportAllSources_snd getEntity (addLocalExports m)
      (addLocalExports m).exportAllSources (addLocalExports m).exportsAll []
      (m.exports.filter (fun n => n ≠ "default")) hpres0 hnd2
    rw [hms] at h2
    have h2' : ws = [] ++ specWarnAux m.id
        (m.exports.filter (fun n => n ≠ "default"))
        ((addLocalExports m).exportAllSources.filterMap
          (exportAllDepOf getEntity (addLocalExports m))) := h2
    rw [h2', List.nil_append, specNamespaceWarnings]
    rfl

/-- Witness for C9 on the re-export diamond of the spec's scenario: c
locally exports local (and default), then re-exports everything from a,
from b, and from the external e.  The closure maps local to c and x to a
(first processed source wins), excludes default, takes nothing from e, and
emits exactly one namespace-conflict warning, for x against b. -/
theorem c9_export_all_closure_witness :
    ((computeExportsAll c9GetEntity c9C).2 =
      specNamespaceWarnings c9C (internalExportAllDeps c9GetEntity c9C)) ∧
    (computeExportsAll c9GetEntity c9C).2 = [.namespaceConflict "x" "c" "b"] ∧
    (computeExportsAll c9GetEntity c9C).1.exportsAll.lookup "x" = some "a" ∧
    (computeExportsAll c9GetEntity c9C).1.exportsAll.lookup "local" = some "c" ∧
    (computeExportsAll c9GetEntity c9C).1.exportsAll.lookup "default" = none := by
  refine ⟨(c9_export_all_closure c9GetEntity c9C rfl (by decide)).2, ?_, ?_, ?_, ?_⟩
  · rfl
  · rfl
  · rfl
  · rfl

end Rollup
